import Mathlib

/-!
Verification of the `github-repo-activity` aggregation/query pipeline
(package `ghra`, file `repo-activity/repo-activity.go`, and the HTTP
handler in `server/server.go`).

Go strings are modelled as `List Char` in the query-builder component
(where we reason about the fine structure of the produced query string)
and as Lean `String` in the record/aggregation component (where strings
are only compared for equality and carried around).

Go's `time.Time` values appear at two granularities:
  * civil days (an `Int` counting days since 1970-01-01) for
    `time.Now().AddDate(0, 0, -DaysOld).Format("2006-01-02")`, and
  * nanoseconds (a `Nat`, elapsed durations of issues created in the
    past) for `time.Since(created).Round(24 * time.Hour)`.
-/

namespace Ghra

/-- Abbreviation turning a Lean string literal into the `List Char`
representation used for Go strings in the query builder. -/
def goStr (s : String) : List Char := s.toList

/-! ### Decimal rendering and calendar formatting

`formatDate` models the behaviour of Go's `Format("2006-01-02")` on a
civil day number: Gregorian calendar conversion (standard
days-from-civil-epoch algorithm, as implemented inside Go's `time`
package) followed by zero-padded `YYYY-MM-DD` rendering. -/

/-- Decimal digits of a natural number, most significant first. -/
def natToChars (n : Nat) : List Char := Nat.toDigits 10 n

/-- Zero-pad to two digits (the `01` / `02` verbs of the Go layout). -/
def pad2 (n : Nat) : List Char :=
  if n < 10 then '0' :: natToChars n else natToChars n

/-- Zero-pad to four digits (the `2006` verb of the Go layout). -/
def pad4 (n : Nat) : List Char :=
  List.replicate (4 - (natToChars n).length) '0' ++ natToChars n

/-- Convert a day count since 1970-01-01 to a Gregorian `(year, month, day)`
triple. Note that `/` on `Int` rounds towards negative infinity for a
positive divisor, which is exactly the era computation of the standard
algorithm. -/
def civilFromDays (z0 : Int) : Int × Nat × Nat :=
  let z : Int := z0 + 719468
  let era : Int := z / 146097
  let doe : Nat := (z - era * 146097).toNat
  let yoe : Nat := (doe - doe / 1460 + doe / 36524 - doe / 146096) / 365
  let y : Int := (yoe : Int) + era * 400
  let doy : Nat := doe - (365 * yoe + yoe / 4 - yoe / 100)
  let mp : Nat := (5 * doy + 2) / 153
  let d : Nat := doy - (153 * mp + 2) / 5 + 1
  let m : Nat := if mp < 10 then mp + 3 else mp - 9
  (if m ≤ 2 then y + 1 else y, m, d)

/-- `YYYY-MM-DD` rendering of a civil day number (Go layout `2006-01-02`). -/
def formatDate (z : Int) : List Char :=
  let ymd := civilFromDays z
  pad4 ymd.1.toNat ++ ['-'] ++ pad2 ymd.2.1 ++ ['-'] ++ pad2 ymd.2.2

/-! ### BuildQuery -/

/-- Day number of the query cutoff: `time.Now().AddDate(0, 0, DaysOld*-1)`
at civil-day granularity, where `today` is the civil day of `time.Now()`. -/
def cutoffDay (daysOld today : Int) : Int := today - daysOld

/-- Model of `GitHubRepoActivityService.BuildQuery`:

```go
var repos []string
for _, s := range ghra.options.Repos {
    repos = append(repos, fmt.Sprintf("repo:%s", s))
}
created := time.Now().AddDate(0, 0, ghra.options.DaysOld*-1).Format("2006-01-02")
query := fmt.Sprintf("is:%s %s created:>=%s", issueType, strings.Join(repos, " "), created)
```

`strings.Join` is `List.intercalate` on the space separator. -/
def BuildQuery (reposOpt : List (List Char)) (daysOld today : Int)
    (issueType : List Char) : List Char :=
  let repos := reposOpt.map (fun s => goStr "repo:" ++ s)
  let created := formatDate (cutoffDay daysOld today)
  goStr "is:" ++ issueType ++ goStr " " ++ List.intercalate (goStr " ") repos ++
    goStr " created:>=" ++ created

/-- The space-separated components of the query produced by `BuildQuery`
(for a non-empty repository list): the type filter, one repository filter
per configured repository, and the creation-date filter. -/
def BuildQueryTokens (reposOpt : List (List Char)) (daysOld today : Int)
    (issueType : List Char) : List (List Char) :=
  (goStr "is:" ++ issueType) ::
    (reposOpt.map (fun s => goStr "repo:" ++ s) ++
      [goStr "created:>=" ++ formatDate (cutoffDay daysOld today)])

/-- Recognizes a type filter token (`is:...`). -/
def isTypeFilter (tok : List Char) : Bool := (goStr "is:").isPrefixOf tok

/-- Recognizes a repository filter token (`repo:...`). -/
def isRepoFilter (tok : List Char) : Bool := (goStr "repo:").isPrefixOf tok

/-- Recognizes a creation-date filter token (`created:...`). -/
def isDateFilter (tok : List Char) : Bool := (goStr "created:").isPrefixOf tok

theorem intercalate_cons_of_ne_nil {α : Type} (sep x : List α)
    (xs : List (List α)) (h : xs ≠ []) :
    List.intercalate sep (x :: xs) = x ++ sep ++ List.intercalate sep xs := by
  cases xs with
  | nil => exact absurd rfl h
  | cons y ys =>
    simp [List.intercalate, List.intersperse, List.append_assoc]

theorem isPrefixOf_append_self (l t : List Char) :
    l.isPrefixOf (l ++ t) = true := by
  induction l with
  | nil => simp [List.isPrefixOf]
  | cons a as ih => simp [List.isPrefixOf, ih]

theorem intercalate_append_last {α : Type} (sep c : List α) :
    ∀ (rs : List (List α)), rs ≠ [] →
      List.intercalate sep (rs ++ [c]) = List.intercalate sep rs ++ sep ++ c := by
  intro rs
  induction rs with
  | nil => intro h; exact absurd rfl h
  | cons r tl ih =>
    intro _
    cases tl with
    | nil => simp [List.intercalate, List.intersperse, List.append_assoc]
    | cons r2 tl2 =>
      rw [List.cons_append,
        intercalate_cons_of_ne_nil sep r ((r2 :: tl2) ++ [c]) (by simp),
        ih (by simp),
        intercalate_cons_of_ne_nil sep r (r2 :: tl2) (by simp)]
      simp [List.append_assoc]

theorem isTypeFilter_type (t : List Char) : isTypeFilter (goStr "is:" ++ t) = true :=
  isPrefixOf_append_self (goStr "is:") t

theorem isTypeFilter_repo (s : List Char) : isTypeFilter (goStr "repo:" ++ s) = false := rfl

theorem isTypeFilter_date (d : List Char) :
    isTypeFilter (goStr "created:>=" ++ d) = false := rfl

theorem isRepoFilter_type (t : List Char) : isRepoFilter (goStr "is:" ++ t) = false := rfl

theorem isRepoFilter_repo (s : List Char) : isRepoFilter (goStr "repo:" ++ s) = true :=
  isPrefixOf_append_self (goStr "repo:") s

theorem isRepoFilter_date (d : List Char) :
    isRepoFilter (goStr "created:>=" ++ d) = false := rfl

theorem isDateFilter_type (t : List Char) : isDateFilter (goStr "is:" ++ t) = false := rfl

theorem isDateFilter_repo (s : List Char) : isDateFilter (goStr "repo:" ++ s) = false := rfl

theorem isDateFilter_date (d : List Char) :
    isDateFilter (goStr "created:>=" ++ d) = true := by
  have h : goStr "created:>=" ++ d = goStr "created:" ++ (goStr ">=" ++ d) := rfl
  rw [isDateFilter, h]
  exact isPrefixOf_append_self (goStr "created:") (goStr ">=" ++ d)

theorem filter_map_repo_false (l : List (List Char)) (p : List Char → Bool)
    (h : ∀ s, p (goStr "repo:" ++ s) = false) :
    (l.map (fun s => goStr "repo:" ++ s)).filter p = [] := by
  simp [List.filter_map, Function.comp, h]

theorem filter_map_repo_true (l : List (List Char)) (p : List Char → Bool)
    (h : ∀ s, p (goStr "repo:" ++ s) = true) :
    (l.map (fun s => goStr "repo:" ++ s)).filter p = l.map (fun s => goStr "repo:" ++ s) := by
  rw [List.filter_eq_self]
  intro a ha
  obtain ⟨s, _, rfl⟩ := List.mem_map.mp ha
  exact h s

/-- C3: for every non-empty repository list (of space-free `owner/name`
identifiers) and non-negative day count, the query built by `BuildQuery` is
the space-separated join of its token list, and that token list contains
exactly one type filter (for the requested kind), exactly one repository
filter per input repository entry (with no duplicates when the input
list has none), and exactly one creation-date filter whose date is the
current civil day minus `DaysOld`, rendered `YYYY-MM-DD`, in the
`created:>=` (on-or-after) form. -/
theorem BuildQuery_filters (reposOpt : List (List Char)) (daysOld today : Int)
    (issueType : List Char) (hne : reposOpt ≠ []) (hdays : 0 ≤ daysOld)
    (hsp : ∀ s ∈ reposOpt, ' ' ∉ s) :
    BuildQuery reposOpt daysOld today issueType =
        List.intercalate (goStr " ") (BuildQueryTokens reposOpt daysOld today issueType)
      ∧ (BuildQueryTokens reposOpt daysOld today issueType).filter isTypeFilter =
          [goStr "is:" ++ issueType]
      ∧ (BuildQueryTokens reposOpt daysOld today issueType).filter isRepoFilter =
          reposOpt.map (fun s => goStr "repo:" ++ s)
      ∧ (BuildQueryTokens reposOpt daysOld today issueType).filter isDateFilter =
          [goStr "created:>=" ++ formatDate (cutoffDay daysOld today)]
      ∧ (reposOpt.Nodup →
          ((BuildQueryTokens reposOpt daysOld today issueType).filter isRepoFilter).Nodup) := by
  have hmapne : reposOpt.map (fun s => goStr "repo:" ++ s) ≠ [] := by
    intro h
    exact hne (List.map_eq_nil_iff.mp h)
  refine ⟨?_, ?_, ?_, ?_, ?_⟩
  · rw [BuildQueryTokens,
      intercalate_cons_of_ne_nil (goStr " ") _ _ (by simp),
      intercalate_append_last (goStr " ") _ _ hmapne]
    show BuildQuery reposOpt daysOld today issueType = _
    rw [BuildQuery]
    have hsplit : goStr " created:>=" = goStr " " ++ goStr "created:>=" := rfl
    simp only [hsplit, List.append_assoc]
  · rw [BuildQueryTokens, List.filter_cons, List.filter_append,
      isTypeFilter_type, filter_map_repo_false _ _ isTypeFilter_repo,
      List.filter_cons, isTypeFilter_date]
    simp
  · rw [BuildQueryTokens, List.filter_cons, List.filter_append,
      isRepoFilter_type, filter_map_repo_true _ _ isRepoFilter_repo,
      List.filter_cons, isRepoFilter_date]
    simp
  · rw [BuildQueryTokens, List.filter_cons, List.filter_append,
      isDateFilter_type, filter_map_repo_false _ _ isDateFilter_repo,
      List.filter_cons, isDateFilter_date]
    simp
  · intro hnd
    rw [BuildQueryTokens, List.filter_cons, List.filter_append,
      isRepoFilter_type, filter_map_repo_true _ _ isRepoFilter_repo,
      List.filter_cons, isRepoFilter_date]
    simpa using hnd.map (fun a b hab => List.append_cancel_left hab)

/-- Witness for C3 at the concrete input `repos = ["a/b"]`, `daysOld = 7`,
`today = day 20000` (2024-10-04), kind `issue`. -/
theorem BuildQuery_filters_witness :
    ([goStr "a/b"] : List (List Char)) ≠ [] ∧ (0 : Int) ≤ 7 ∧
      (BuildQueryTokens [goStr "a/b"] 7 20000 (goStr "issue")).filter isRepoFilter =
        [goStr "repo:a/b"] :=
  ⟨by decide, by decide,
    (BuildQuery_filters [goStr "a/b"] 7 20000 (goStr "issue")
      (by decide) (by decide) (by decide)).2.2.1⟩

/-- C10: `BuildQuery` is a total function that validates nothing. On an
empty repository list the query is still produced: it is the space-join of
a type-filter token, one empty token (the empty `strings.Join` result
between two spaces), and a date-filter token — so it contains the type and
date filters and no repository filter. On a negative day count the cutoff
day lies strictly in the future of `today`. -/
theorem BuildQuery_total_no_validation :
    (∀ (daysOld today : Int) (issueType : List Char),
        BuildQuery [] daysOld today issueType =
            List.intercalate (goStr " ")
              [goStr "is:" ++ issueType, [],
                goStr "created:>=" ++ formatDate (cutoffDay daysOld today)]
          ∧ ([goStr "is:" ++ issueType, ([] : List Char),
                goStr "created:>=" ++ formatDate (cutoffDay daysOld today)].filter
              isTypeFilter) = [goStr "is:" ++ issueType]
          ∧ ([goStr "is:" ++ issueType, ([] : List Char),
                goStr "created:>=" ++ formatDate (cutoffDay daysOld today)].filter
              isDateFilter) =
              [goStr "created:>=" ++ formatDate (cutoffDay daysOld today)]
          ∧ ([goStr "is:" ++ issueType, ([] : List Char),
                goStr "created:>=" ++ formatDate (cutoffDay daysOld today)].filter
              isRepoFilter) = [])
      ∧ (∀ daysOld today : Int, daysOld < 0 → today < cutoffDay daysOld today) := by
  constructor
  · intro daysOld today issueType
    refine ⟨?_, ?_, ?_, ?_⟩
    · rw [BuildQuery]
      have hsplit : goStr " created:>=" = goStr " " ++ goStr "created:>=" := rfl
      simp [hsplit, List.intercalate, List.intersperse, List.append_assoc]
    · rw [List.filter_cons, isTypeFilter_type, List.filter_cons, List.filter_cons,
        isTypeFilter_date]
      simp [isTypeFilter, List.isPrefixOf]
    · rw [List.filter_cons, isDateFilter_type, List.filter_cons, List.filter_cons,
        isDateFilter_date]
      simp [isDateFilter, List.isPrefixOf]
    · rw [List.filter_cons, isRepoFilter_type, List.filter_cons, List.filter_cons,
        isRepoFilter_date]
      simp [isRepoFilter, List.isPrefixOf]
  · intro daysOld today h
    rw [cutoffDay]
    omega

/-- Witness for C10's negative-day-count part at `daysOld = -1`,
`today = 0`: the cutoff day is in the future. -/
theorem BuildQuery_total_no_validation_witness :
    (-1 : Int) < 0 ∧ (0 : Int) < cutoffDay (-1) 0 :=
  ⟨by decide, BuildQuery_total_no_validation.2 (-1) 0 (by decide)⟩

/-! ### Data model: activity records, buckets, reports

Go's nullable pointer fields (`*int64`, `*string`, …) are modelled as
`Option`. The Go map `map[string]*RepoActivityReport` is modelled as an
association list with unique keys; Go map iteration order is
unspecified, and no claim below depends on the order of entries, only on
key lookup and on sums/filters over the entry set. -/

/-- `IssueAuthor` from `repo-activity.go`. -/
structure IssueAuthor where
  displayName : Option String
  profileURL : Option String
deriving DecidableEq

/-- `IssueInfo` from `repo-activity.go`: one normalized activity record. -/
structure IssueInfo where
  id : Option Int
  number : Option Int
  title : Option String
  author : IssueAuthor
  repo : String
  url : Option String
  status : Option String
  age : String
deriving DecidableEq

/-- `RepoActivityReport`: the per-repository bucket with its issue and
pull-request sequences. -/
structure RepoActivityReport where
  issues : List IssueInfo
  pullRequests : List IssueInfo
deriving DecidableEq

/-- `ActivityReport`: the per-repository map plus the two totals. -/
structure ActivityReport where
  repoActivityReports : List (String × RepoActivityReport)
  totalIssues : Nat
  totalPullRequests : Nat
deriving DecidableEq

/-- Lookup of `repoReports[r]` (`nil` when the key is absent). -/
def findBucket (r : String) : List (String × RepoActivityReport) → Option RepoActivityReport
  | [] => none
  | (k, b) :: rest => if k = r then some b else findBucket r rest

/-- The issue sequence of the bucket for `r` (empty when no bucket exists). -/
def bucketIssues (r : String) (m : List (String × RepoActivityReport)) : List IssueInfo :=
  match findBucket r m with
  | none => []
  | some b => b.issues

/-- The pull-request sequence of the bucket for `r` (empty when no bucket
exists). -/
def bucketPullRequests (r : String) (m : List (String × RepoActivityReport)) :
    List IssueInfo :=
  match findBucket r m with
  | none => []
  | some b => b.pullRequests

/-- One step of the first `BuildReport` loop:

```go
if repoReports[i.Repo] == nil {
    repoReports[i.Repo] = &RepoActivityReport{}
}
repoReports[i.Repo].Issues = append(repoReports[i.Repo].Issues, i)
```
-/
def addIssue (m : List (String × RepoActivityReport)) (i : IssueInfo) :
    List (String × RepoActivityReport) :=
  match m with
  | [] => [(i.repo, ⟨[i], []⟩)]
  | (k, b) :: rest =>
    if k = i.repo then (k, ⟨b.issues ++ [i], b.pullRequests⟩) :: rest
    else (k, b) :: addIssue rest i

/-- One step of the second `BuildReport` loop (same, on `PullRequests`). -/
def addPullRequest (m : List (String × RepoActivityReport)) (p : IssueInfo) :
    List (String × RepoActivityReport) :=
  match m with
  | [] => [(p.repo, ⟨[], [p]⟩)]
  | (k, b) :: rest =>
    if k = p.repo then (k, ⟨b.issues, b.pullRequests ++ [p]⟩) :: rest
    else (k, b) :: addPullRequest rest p

/-- The aggregation phase of `BuildReport` (lines 154–174 of
`repo-activity.go`): group the two fetched record sequences into
per-repository buckets and take the totals from the input lengths. -/
def BuildReportAggregate (issues prs : List IssueInfo) : ActivityReport :=
  let m1 := issues.foldl addIssue []
  let m2 := prs.foldl addPullRequest m1
  ⟨m2, issues.length, prs.length⟩

/-- Sum of the issue-sequence lengths over all buckets of the map. -/
def totalBucketIssues (m : List (String × RepoActivityReport)) : Nat :=
  (m.map (fun p => p.2.issues.length)).sum

/-- Sum of the pull-request-sequence lengths over all buckets of the map. -/
def totalBucketPullRequests (m : List (String × RepoActivityReport)) : Nat :=
  (m.map (fun p => p.2.pullRequests.length)).sum

theorem totalBucketIssues_addIssue (m : List (String × RepoActivityReport))
    (i : IssueInfo) : totalBucketIssues (addIssue m i) = totalBucketIssues m + 1 := by
  induction m with
  | nil => simp [addIssue, totalBucketIssues]
  | cons kb rest ih =>
    obtain ⟨k, b⟩ := kb
    by_cases hk : k = i.repo <;> simp_all [addIssue, totalBucketIssues] <;> omega

theorem totalBucketIssues_addPullRequest (m : List (String × RepoActivityReport))
    (p : IssueInfo) : totalBucketIssues (addPullRequest m p) = totalBucketIssues m := by
  induction m with
  | nil => simp [addPullRequest, totalBucketIssues]
  | cons kb rest ih =>
    obtain ⟨k, b⟩ := kb
    by_cases hk : k = p.repo <;> simp_all [addPullRequest, totalBucketIssues]

theorem totalBucketPullRequests_addIssue (m : List (String × RepoActivityReport))
    (i : IssueInfo) :
    totalBucketPullRequests (addIssue m i) = totalBucketPullRequests m := by
  induction m with
  | nil => simp [addIssue, totalBucketPullRequests]
  | cons kb rest ih =>
    obtain ⟨k, b⟩ := kb
    by_cases hk : k = i.repo <;> simp_all [addIssue, totalBucketPullRequests]

theorem totalBucketPullRequests_addPullRequest (m : List (String × RepoActivityReport))
    (p : IssueInfo) :
    totalBucketPullRequests (addPullRequest m p) = totalBucketPullRequests m + 1 := by
  induction m with
  | nil => simp [addPullRequest, totalBucketPullRequests]
  | cons kb rest ih =>
    obtain ⟨k, b⟩ := kb
    by_cases hk : k = p.repo <;> simp_all [addPullRequest, totalBucketPullRequests] <;> omega

theorem totalBucketIssues_foldl_addIssue (issues : List IssueInfo) :
    ∀ m, totalBucketIssues (issues.foldl addIssue m) = totalBucketIssues m + issues.length := by
  induction issues with
  | nil => simp
  | cons i is ih =>
    intro m
    rw [List.foldl_cons, ih, totalBucketIssues_addIssue]
    simp only [List.length_cons]
    omega

theorem totalBucketIssues_foldl_addPullRequest (prs : List IssueInfo) :
    ∀ m, totalBucketIssues (prs.foldl addPullRequest m) = totalBucketIssues m := by
  induction prs with
  | nil => simp
  | cons p ps ih =>
    intro m
    rw [List.foldl_cons, ih, totalBucketIssues_addPullRequest]

theorem totalBucketPullRequests_foldl_addIssue (issues : List IssueInfo) :
    ∀ m, totalBucketPullRequests (issues.foldl addIssue m) = totalBucketPullRequests m := by
  induction issues with
  | nil => simp
  | cons i is ih =>
    intro m
    rw [List.foldl_cons, ih, totalBucketPullRequests_addIssue]

theorem totalBucketPullRequests_foldl_addPullRequest (prs : List IssueInfo) :
    ∀ m, totalBucketPullRequests (prs.foldl addPullRequest m) =
      totalBucketPullRequests m + prs.length := by
  induction prs with
  | nil => simp
  | cons p ps ih =>
    intro m
    rw [List.foldl_cons, ih, totalBucketPullRequests_addPullRequest]
    simp only [List.length_cons]
    omega

/-- C1: `BuildReport`'s aggregation phase copies the input lengths into
the totals, and the per-bucket issue (resp. pull-request) sequence
lengths sum to `TotalIssues` (resp. `TotalPullRequests`) over the whole
map. -/
theorem BuildReportAggregate_totals (issues prs : List IssueInfo) :
    (BuildReportAggregate issues prs).totalIssues = issues.length
      ∧ (BuildReportAggregate issues prs).totalPullRequests = prs.length
      ∧ totalBucketIssues (BuildReportAggregate issues prs).repoActivityReports =
          (BuildReportAggregate issues prs).totalIssues
      ∧ totalBucketPullRequests (BuildReportAggregate issues prs).repoActivityReports =
          (BuildReportAggregate issues prs).totalPullRequests := by
  refine ⟨rfl, rfl, ?_, ?_⟩
  · show totalBucketIssues (prs.foldl addPullRequest (issues.foldl addIssue [])) = _
    rw [totalBucketIssues_foldl_addPullRequest, totalBucketIssues_foldl_addIssue]
    simp [totalBucketIssues, BuildReportAggregate]
  · show totalBucketPullRequests (prs.foldl addPullRequest (issues.foldl addIssue [])) = _
    rw [totalBucketPullRequests_foldl_addPullRequest, totalBucketPullRequests_foldl_addIssue]
    simp [totalBucketPullRequests, BuildReportAggregate]

theorem bucketIssues_addIssue (i : IssueInfo) (r : String) :
    ∀ m, bucketIssues r (addIssue m i) =
      bucketIssues r m ++ (if i.repo = r then [i] else []) := by
  intro m
  induction m with
  | nil => by_cases h : i.repo = r <;> simp [addIssue, bucketIssues, findBucket, h]
  | cons kb rest ih =>
    obtain ⟨k, b⟩ := kb
    by_cases hk : k = i.repo <;> by_cases hr : k = r <;>
      simp_all [addIssue, bucketIssues, findBucket, eq_comm]

theorem bucketIssues_addPullRequest (p : IssueInfo) (r : String) :
    ∀ m, bucketIssues r (addPullRequest m p) = bucketIssues r m := by
  intro m
  induction m with
  | nil => by_cases h : p.repo = r <;> simp [addPullRequest, bucketIssues, findBucket, h]
  | cons kb rest ih =>
    obtain ⟨k, b⟩ := kb
    by_cases hk : k = p.repo <;> by_cases hr : k = r <;>
      simp_all [addPullRequest, bucketIssues, findBucket]

theorem bucketPullRequests_addIssue (i : IssueInfo) (r : String) :
    ∀ m, bucketPullRequests r (addIssue m i) = bucketPullRequests r m := by
  intro m
  induction m with
  | nil => by_cases h : i.repo = r <;> simp [addIssue, bucketPullRequests, findBucket, h]
  | cons kb rest ih =>
    obtain ⟨k, b⟩ := kb
    by_cases hk : k = i.repo <;> by_cases hr : k = r <;>
      simp_all [addIssue, bucketPullRequests, findBucket]

theorem bucketPullRequests_addPullRequest (p : IssueInfo) (r : String) :
    ∀ m, bucketPullRequests r (addPullRequest m p) =
      bucketPullRequests r m ++ (if p.repo = r then [p] else []) := by
  intro m
  induction m with
  | nil => by_cases h : p.repo = r <;> simp [addPullRequest, bucketPullRequests, findBucket, h]
  | cons kb rest ih =>
    obtain ⟨k, b⟩ := kb
    by_cases hk : k = p.repo <;> by_cases hr : k = r <;>
      simp_all [addPullRequest, bucketPullRequests, findBucket, eq_comm]

theorem bucketIssues_foldl_addIssue (r : String) (issues : List IssueInfo) :
    ∀ m, bucketIssues r (issues.foldl addIssue m) =
      bucketIssues r m ++ issues.filter (fun i => i.repo = r) := by
  induction issues with
  | nil => simp
  | cons i is ih =>
    intro m
    rw [List.foldl_cons, ih, bucketIssues_addIssue]
    by_cases h : i.repo = r <;> simp [h, List.filter_cons, List.append_assoc]

theorem bucketIssues_foldl_addPullRequest (r : String) (prs : List IssueInfo) :
    ∀ m, bucketIssues r (prs.foldl addPullRequest m) = bucketIssues r m := by
  induction prs with
  | nil => simp
  | cons p ps ih =>
    intro m
    rw [List.foldl_cons, ih, bucketIssues_addPullRequest]

theorem bucketPullRequests_foldl_addIssue (r : String) (issues : List IssueInfo) :
    ∀ m, bucketPullRequests r (issues.foldl addIssue m) = bucketPullRequests r m := by
  induction issues with
  | nil => simp
  | cons i is ih =>
    intro m
    rw [List.foldl_cons, ih, bucketPullRequests_addIssue]

theorem bucketPullRequests_foldl_addPullRequest (r : String) (prs : List IssueInfo) :
    ∀ m, bucketPullRequests r (prs.foldl addPullRequest m) =
      bucketPullRequests r m ++ prs.filter (fun p => p.repo = r) := by
  induction prs with
  | nil => simp
  | cons p ps ih =>
    intro m
    rw [List.foldl_cons, ih, bucketPullRequests_addPullRequest]
    by_cases h : p.repo = r <;> simp [h, List.filter_cons, List.append_assoc]

theorem mem_keys_addIssue (i : IssueInfo) (x : String) :
    ∀ m, x ∈ (addIssue m i).map Prod.fst ↔ x ∈ m.map Prod.fst ∨ x = i.repo := by
  intro m
  induction m with
  | nil => simp [addIssue]
  | cons kb rest ih =>
    obtain ⟨k, b⟩ := kb
    by_cases hk : k = i.repo <;> simp_all [addIssue] <;> tauto

theorem mem_keys_addPullRequest (p : IssueInfo) (x : String) :
    ∀ m, x ∈ (addPullRequest m p).map Prod.fst ↔ x ∈ m.map Prod.fst ∨ x = p.repo := by
  intro m
  induction m with
  | nil => simp [addPullRequest]
  | cons kb rest ih =>
    obtain ⟨k, b⟩ := kb
    by_cases hk : k = p.repo <;> simp_all [addPullRequest] <;> tauto

theorem nodup_keys_addIssue (i : IssueInfo) :
    ∀ m, (m.map Prod.fst).Nodup → ((addIssue m i).map Prod.fst).Nodup := by
  intro m
  induction m with
  | nil => simp [addIssue]
  | cons kb rest ih =>
    obtain ⟨k, b⟩ := kb
    intro hnd
    by_cases hk : k = i.repo
    · simpa [addIssue, hk] using hnd
    · rw [addIssue]
      simp only [if_neg hk, List.map_cons, List.nodup_cons] at hnd ⊢
      refine ⟨fun hmem => ?_, ih hnd.2⟩
      rcases (mem_keys_addIssue i k rest).mp hmem with h | h
      · exact hnd.1 h
      · exact hk h
    -- the `simp only` above keeps the goal shape stable across branches

theorem nodup_keys_addPullRequest (p : IssueInfo) :
    ∀ m, (m.map Prod.fst).Nodup → ((addPullRequest m p).map Prod.fst).Nodup := by
  intro m
  induction m with
  | nil => simp [addPullRequest]
  | cons kb rest ih =>
    obtain ⟨k, b⟩ := kb
    intro hnd
    by_cases hk : k = p.repo
    · simpa [addPullRequest, hk] using hnd
    · rw [addPullRequest]
      simp only [if_neg hk, List.map_cons, List.nodup_cons] at hnd ⊢
      refine ⟨fun hmem => ?_, ih hnd.2⟩
      rcases (mem_keys_addPullRequest p k rest).mp hmem with h | h
      · exact hnd.1 h
      · exact hk h

theorem nodup_keys_foldl_addIssue (issues : List IssueInfo) :
    ∀ m, (m.map Prod.fst).Nodup → ((issues.foldl addIssue m).map Prod.fst).Nodup := by
  induction issues with
  | nil => simpa using fun m h => h
  | cons i is ih =>
    intro m hnd
    rw [List.foldl_cons]
    exact ih _ (nodup_keys_addIssue i m hnd)

theorem nodup_keys_foldl_addPullRequest (prs : List IssueInfo) :
    ∀ m, (m.map Prod.fst).Nodup → ((prs.foldl addPullRequest m).map Prod.fst).Nodup := by
  induction prs with
  | nil => simpa using fun m h => h
  | cons p ps ih =>
    intro m hnd
    rw [List.foldl_cons]
    exact ih _ (nodup_keys_addPullRequest p m hnd)

/-- C2: the aggregation groups records by their `Repo` field into one
shared bucket per repository key (the map's keys are unique, and the same
lookup yields both sequences of a repository), and for every repository
`r` the bucket's issue sequence is exactly the subsequence of the issue
input with `Repo = r` — i.e. the input's relative order, unaffected by
interleaved records of other repositories — and likewise for pull
requests. -/
theorem BuildReportAggregate_grouping (issues prs : List IssueInfo) (r : String) :
    bucketIssues r (BuildReportAggregate issues prs).repoActivityReports =
        issues.filter (fun i => i.repo = r)
      ∧ bucketPullRequests r (BuildReportAggregate issues prs).repoActivityReports =
          prs.filter (fun p => p.repo = r)
      ∧ ((BuildReportAggregate issues prs).repoActivityReports.map Prod.fst).Nodup := by
  refine ⟨?_, ?_, ?_⟩
  · show bucketIssues r (prs.foldl addPullRequest (issues.foldl addIssue [])) = _
    rw [bucketIssues_foldl_addPullRequest, bucketIssues_foldl_addIssue]
    simp [bucketIssues, findBucket]
  · show bucketPullRequests r (prs.foldl addPullRequest (issues.foldl addIssue [])) = _
    rw [bucketPullRequests_foldl_addPullRequest, bucketPullRequests_foldl_addIssue]
    simp [bucketPullRequests, findBucket]
  · show ((prs.foldl addPullRequest (issues.foldl addIssue [])).map Prod.fst).Nodup
    exact nodup_keys_foldl_addPullRequest prs _ (nodup_keys_foldl_addIssue issues [] (by simp))

theorem mem_keys_foldl_addIssue (x : String) (issues : List IssueInfo) :
    ∀ m, x ∈ ((issues.foldl addIssue m).map Prod.fst) ↔
      x ∈ m.map Prod.fst ∨ ∃ i ∈ issues, i.repo = x := by
  induction issues with
  | nil => simp
  | cons i is ih =>
    intro m
    rw [List.foldl_cons, ih, mem_keys_addIssue]
    constructor
    · rintro ((h | h) | h)
      · exact Or.inl h
      · exact Or.inr ⟨i, by simp, h.symm⟩
      · obtain ⟨j, hj, hjx⟩ := h
        exact Or.inr ⟨j, by simp [hj], hjx⟩
    · rintro (h | ⟨j, hj, hjx⟩)
      · exact Or.inl (Or.inl h)
      · rcases List.mem_cons.mp hj with rfl | hj2
        · exact Or.inl (Or.inr hjx.symm)
        · exact Or.inr ⟨j, hj2, hjx⟩

theorem mem_keys_foldl_addPullRequest (x : String) (prs : List IssueInfo) :
    ∀ m, x ∈ ((prs.foldl addPullRequest m).map Prod.fst) ↔
      x ∈ m.map Prod.fst ∨ ∃ p ∈ prs, p.repo = x := by
  induction prs with
  | nil => simp
  | cons p ps ih =>
    intro m
    rw [List.foldl_cons, ih, mem_keys_addPullRequest]
    constructor
    · rintro ((h | h) | h)
      · exact Or.inl h
      · exact Or.inr ⟨p, by simp, h.symm⟩
      · obtain ⟨q, hq, hqx⟩ := h
        exact Or.inr ⟨q, by simp [hq], hqx⟩
    · rintro (h | ⟨q, hq, hqx⟩)
      · exact Or.inl (Or.inl h)
      · rcases List.mem_cons.mp hq with rfl | hq2
        · exact Or.inl (Or.inr hqx.symm)
        · exact Or.inr ⟨q, hq2, hqx⟩

theorem findBucket_eq_none_iff (r : String) :
    ∀ m, findBucket r m = none ↔ r ∉ m.map Prod.fst := by
  intro m
  induction m with
  | nil => simp [findBucket]
  | cons kb rest ih =>
    obtain ⟨k, b⟩ := kb
    by_cases hk : k = r <;> simp_all [findBucket, eq_comm]

/-- C8: a repository identifier for which no record occurs in either
input sequence has no entry in the report map at all — the lookup is
`none`, not an empty bucket. (The aggregation never consults the
configured repository list: `BuildReportAggregate` does not even receive
it.) -/
theorem BuildReportAggregate_absent (issues prs : List IssueInfo) (r : String)
    (hIss : ∀ i ∈ issues, i.repo ≠ r) (hPrs : ∀ p ∈ prs, p.repo ≠ r) :
    findBucket r (BuildReportAggregate issues prs).repoActivityReports = none := by
  show findBucket r (prs.foldl addPullRequest (issues.foldl addIssue [])) = none
  rw [findBucket_eq_none_iff, mem_keys_foldl_addPullRequest, mem_keys_foldl_addIssue]
  rintro ((h | ⟨i, hi, hix⟩) | ⟨p, hp, hpx⟩)
  · simp at h
  · exact hIss i hi hix
  · exact hPrs p hp hpx

/-- Witness for C8: one issue for repository `a/b`, no pull requests; the
repository `c/d` (think of it as configured but without records) has no
entry in the map. -/
theorem BuildReportAggregate_absent_witness :
    (∀ i ∈ [({ id := none, number := none, title := none,
                author := ⟨none, none⟩, repo := "a/b", url := none,
                status := none, age := "1 day" } : IssueInfo)], i.repo ≠ "c/d")
      ∧ (∀ p ∈ ([] : List IssueInfo), p.repo ≠ "c/d")
      ∧ findBucket "c/d"
          (BuildReportAggregate
            [({ id := none, number := none, title := none,
                author := ⟨none, none⟩, repo := "a/b", url := none,
                status := none, age := "1 day" } : IssueInfo)] []).repoActivityReports =
          none :=
  ⟨by decide, by decide,
    BuildReportAggregate_absent
      [({ id := none, number := none, title := none,
          author := ⟨none, none⟩, repo := "a/b", url := none,
          status := none, age := "1 day" } : IssueInfo)] [] "c/d"
      (by decide) (by decide)⟩

/-! ### Fetching and normalization

`FetchIssues` paginates through the external search capability. The
backend is modelled as the finite sequence of page responses it will
serve (each either a transport/backend error or a page of raw results;
the list ends where the backend reports no next page). The `durafmt`
humanizing library is external as well and is modelled as a `render`
parameter. -/

/-- `time.Hour * 24` in nanoseconds (Go `time.Duration` units). -/
def day : Nat := 86400000000000

/-- Go `(d time.Duration).Round(m)` for non-negative durations: rounds to
the nearest multiple of `m`, half away from zero; `m = 0` returns `d`
unchanged. (Go also clamps on `int64` overflow, far outside the ranges
modelled here.) -/
def goDurationRound (d m : Nat) : Nat :=
  if m = 0 then d
  else if d % m + d % m < m then d - d % m else d + (m - d % m)

/-- Go `strings.TrimPrefix`. -/
def trimPrefix (s pre : String) : String :=
  if pre.isPrefixOf s then s.drop pre.length else s

/-- The fields of a raw `github.Issue` search result used by the loop
body of `FetchIssues`. `createdAt` is nanoseconds since the epoch (the
code dereferences `*issue.CreatedAt`, so it is taken as present). -/
structure SearchIssue where
  id : Option Int
  number : Option Int
  title : Option String
  userLogin : Option String
  userHTMLURL : Option String
  createdAt : Nat
  repositoryURL : String
  htmlURL : Option String
  state : Option String
deriving DecidableEq

/-- The normalization of one raw result item inside the `FetchIssues`
loop:

```go
age := durafmt.Parse(time.Since(*issue.CreatedAt).Round(time.Hour * 24))
info := IssueInfo{ ...,
    Repo: strings.TrimPrefix(*issue.RepositoryURL, "https://api.github.com/repos/"),
    Age:  age.String(),
}
```

`render` stands for `durafmt.Parse(·).String()` and `now` for the time
of the `time.Since` call. -/
def normalizeIssue (now : Nat) (render : Nat → String) (issue : SearchIssue) : IssueInfo :=
  { id := issue.id
    number := issue.number
    title := issue.title
    author := { displayName := issue.userLogin, profileURL := issue.userHTMLURL }
    repo := trimPrefix issue.repositoryURL "https://api.github.com/repos/"
    url := issue.htmlURL
    status := issue.state
    age := render (goDurationRound (now - issue.createdAt) day) }

/-- The pagination loop of `FetchIssues`: consume page responses in
order; a response error returns immediately with that error (dropping
the accumulator), a page of results is normalized and appended, and the
list ends when the backend reports no next page. -/
def FetchIssuesLoop (now : Nat) (render : Nat → String) :
    List (Except String (List SearchIssue)) → List IssueInfo →
      Except String (List IssueInfo)
  | [], acc => Except.ok acc
  | Except.error e :: _, _ => Except.error e
  | Except.ok items :: rest, acc =>
    FetchIssuesLoop now render rest (acc ++ items.map (normalizeIssue now render))

/-- `FetchIssues`: run the pagination loop starting from the empty
`issueList`. -/
def FetchIssues (now : Nat) (render : Nat → String)
    (pages : List (Except String (List SearchIssue))) : Except String (List IssueInfo) :=
  FetchIssuesLoop now render pages []

/-- `BuildReport` (lines 143–174): fetch issues, abort on error; fetch
pull requests, abort on error; aggregate. -/
def BuildReport (now : Nat) (render : Nat → String)
    (issuePages prPages : List (Except String (List SearchIssue))) :
    Except String ActivityReport :=
  match FetchIssues now render issuePages with
  | Except.error e => Except.error e
  | Except.ok issues =>
    match FetchIssues now render prPages with
    | Except.error e => Except.error e
    | Except.ok prs => Except.ok (BuildReportAggregate issues prs)

theorem FetchIssuesLoop_all_ok (now : Nat) (render : Nat → String)
    (pages : List (List SearchIssue)) :
    ∀ acc, FetchIssuesLoop now render (pages.map Except.ok) acc =
      Except.ok (acc ++ (pages.map (fun pg => pg.map (normalizeIssue now render))).flatten) := by
  induction pages with
  | nil => intro acc; simp [FetchIssuesLoop]
  | cons pg pgs ih =>
    intro acc
    rw [List.map_cons, FetchIssuesLoop, ih]
    simp [List.append_assoc]

theorem FetchIssuesLoop_error (now : Nat) (render : Nat → String) (e : String)
    (rest : List (Except String (List SearchIssue))) :
    ∀ (good : List (List SearchIssue)) (acc : List IssueInfo),
      FetchIssuesLoop now render (good.map Except.ok ++ Except.error e :: rest) acc =
        Except.error e := by
  intro good
  induction good with
  | nil => intro acc; simp [FetchIssuesLoop]
  | cons pg pgs ih =>
    intro acc
    rw [List.map_cons, List.cons_append, FetchIssuesLoop]
    exact ih _

/-- C4: a failing page request — in particular one following successful
pages — makes the whole fetch return exactly that error, whatever the
accumulator already holds (no partial result, no record list, and the
remaining page responses are never consulted); and `BuildReport` returns
that error whenever either its issue fetch or its pull-request fetch
fails. -/
theorem FetchIssues_error_no_partial (now : Nat) (render : Nat → String)
    (good : List (List SearchIssue)) (e : String)
    (rest : List (Except String (List SearchIssue))) :
    (∀ acc, FetchIssuesLoop now render (good.map Except.ok ++ Except.error e :: rest) acc =
        Except.error e)
      ∧ FetchIssues now render (good.map Except.ok ++ Except.error e :: rest) =
          Except.error e
      ∧ (∀ prPages, BuildReport now render (good.map Except.ok ++ Except.error e :: rest)
          prPages = Except.error e)
      ∧ (∀ okIssuePages : List (List SearchIssue),
          BuildReport now render (okIssuePages.map Except.ok)
            (good.map Except.ok ++ Except.error e :: rest) = Except.error e) := by
  refine ⟨fun acc => FetchIssuesLoop_error now render e rest good acc,
    FetchIssuesLoop_error now render e rest good [], ?_, ?_⟩
  · intro prPages
    rw [BuildReport, FetchIssues, FetchIssuesLoop_error now render e rest good]
  · intro okIssuePages
    rw [BuildReport, FetchIssues, FetchIssuesLoop_all_ok,
      FetchIssues, FetchIssuesLoop_error now render e rest good]

/-- The C6 claim's reading of the age computation, stated from the
spec's words for comparison with `normalizeIssue`: elapsed time since
creation rounded DOWN to a whole number of days, then rendered. -/
def ageSpecRoundedDown (render : Nat → String) (elapsed : Nat) : String :=
  render (day * (elapsed / day))

/-- A raw search result created at the epoch, for concrete evaluation. -/
def sampleSearchIssue : SearchIssue :=
  { id := none, number := none, title := none, userLogin := none,
    userHTMLURL := none, createdAt := 0,
    repositoryURL := "https://api.github.com/repos/a/b", htmlURL := none,
    state := none }

/-- C6 counterexample: at an elapsed time of 36 hours the code renders a
duration of 2 days (`Round` rounds 36 h up to 48 h), while the claimed
floor-to-whole-days computation yields 1 day — so the `Age` field is not
produced by rounding down. The renderer is instantiated with plain
decimal printing of the nanosecond count. -/
theorem normalizeIssue_age_not_rounded_down :
    (normalizeIssue 129600000000000 (fun n => String.mk (natToChars n))
        sampleSearchIssue).age ≠
      ageSpecRoundedDown (fun n => String.mk (natToChars n))
        (129600000000000 - sampleSearchIssue.createdAt) := by
  decide

/-- C6 (amended): the `Age` field is the rendering of the elapsed time
since creation rounded to the NEAREST whole number of days (ties rounded
up), i.e. `Round(time.Hour * 24)`, not rounded down. -/
theorem normalizeIssue_age_rounds_to_nearest (now : Nat) (render : Nat → String)
    (issue : SearchIssue) :
    (normalizeIssue now render issue).age =
        render (goDurationRound (now - issue.createdAt) day)
      ∧ ∀ e : Nat, goDurationRound e day = day * ((e + day / 2) / day) := by
  refine ⟨rfl, fun e => ?_⟩
  rw [goDurationRound, if_neg (by decide : ¬ day = 0)]
  simp only [day]
  split <;> omega

/-! ### The HTTP handler (`server/server.go`)

The `Report` handler's interaction with the shared options struct, the
`days` query parameter, and the response writer. `html/template`
execution is external and appears as a `renderPage` parameter; the
fetch/aggregate pipeline appears as a `build` function of the options. -/

/-- `ghra.GitHubRepoActivityOptions`, the options struct shared by the
server across requests (`srv.options`). -/
structure GitHubRepoActivityOptions where
  repos : List String
  daysOld : Int
  apiEndpoint : String
  token : String
deriving DecidableEq

/-- Go `strconv.Atoi`: optional sign, at least one digit, all digits,
value within the 64-bit integer range. -/
def goAtoi (s : String) : Option Int :=
  let cs := s.toList
  let signDigits : Bool × List Char :=
    match cs with
    | '-' :: rest => (true, rest)
    | '+' :: rest => (false, rest)
    | _ => (false, cs)
  let ds := signDigits.2
  if ds = [] then none
  else if ds.all (fun c => c.isDigit) then
    let n : Nat := ds.foldl (fun acc c => acc * 10 + (c.toNat - '0'.toNat)) 0
    let v : Int := if signDigits.1 then -(n : Int) else (n : Int)
    if -(2 ^ 63) ≤ v ∧ v < 2 ^ 63 then some v else none
  else none

/-- The `days` query-parameter step of the `Report` handler, acting on
the server's shared options struct:

```go
daysQuery := query.Get("days")
if daysQuery != "" {
    days, err := strconv.Atoi(daysQuery)
    if err == nil {
        srv.options.DaysOld = days
    }
}
```

The returned value is the state of `srv.options` after the request —
the same object the report build then reads. `daysQuery` is the result
of `query.Get` (the empty string when the parameter is absent). -/
def ReportDays (opts : GitHubRepoActivityOptions) (daysQuery : String) :
    GitHubRepoActivityOptions :=
  if daysQuery ≠ "" then
    match goAtoi daysQuery with
    | some d => { opts with daysOld := d }
    | none => opts
  else opts

/-- The response written by the tail of the `Report` handler:

```go
report, err := service.BuildReport()
if err != nil {
    http.Error(w, err.Error(), http.StatusInternalServerError)
}
...
tmpl.Execute(w, data)
```

`http.Error` sets status 500 and writes the error text plus a newline;
there is no `return`, so `tmpl.Execute` then appends the rendered page
(with no report data) to the same body. On success the first body write
sets status 200 implicitly. -/
def ReportResponse (build : Except String ActivityReport)
    (renderPage : Option ActivityReport → String) : Nat × String :=
  match build with
  | Except.error e => (500, e ++ "\n" ++ renderPage none)
  | Except.ok rep => (200, renderPage (some rep))

/-- The whole `Report` handler: update the shared options from the
`days` query parameter, build the report with the updated options, write
the response. Returns the post-request state of `srv.options` along with
the response status and body. -/
def ReportHandler (opts : GitHubRepoActivityOptions) (daysQuery : String)
    (build : GitHubRepoActivityOptions → Except String ActivityReport)
    (renderPage : Option ActivityReport → String) :
    GitHubRepoActivityOptions × Nat × String :=
  let opts2 := ReportDays opts daysQuery
  (opts2, ReportResponse (build opts2) renderPage)

/-- C5 counterexample: with the server configured for 14 days, a request
carrying `?days=30` leaves the shared options struct at 30, so a
subsequent request (no `days` parameter) observes a day count of 30 —
not the configured default of 14 the claim promises. -/
theorem ReportDays_mutates_config_counterexample :
    (ReportDays (ReportDays ⟨["a/b"], 14, "", ""⟩ "30") "").daysOld = 30
      ∧ (ReportDays (ReportDays ⟨["a/b"], 14, "", ""⟩ "30") "").daysOld ≠ 14 := by
  constructor
  · decide
  · decide

/-- C5 (amended): a valid integer `days` query parameter is assigned
into the server's shared options struct: the current request's build
reads the new value, and the struct — hence every subsequent request
that does not itself override it — keeps that value instead of the
configured default. -/
theorem ReportDays_override_persists (opts : GitHubRepoActivityOptions)
    (q : String) (d : Int) (hq : q ≠ "") (hd : goAtoi q = some d) :
    ReportDays opts q = { opts with daysOld := d }
      ∧ (ReportDays opts q).daysOld = d
      ∧ ReportDays (ReportDays opts q) "" = ReportDays opts q := by
  have h1 : ReportDays opts q = { opts with daysOld := d } := by
    rw [ReportDays, if_pos hq, hd]
  refine ⟨h1, by rw [h1], ?_⟩
  rw [ReportDays]
  simp

/-- Witness for the amended C5 at `opts = {repos := ["a/b"], daysOld := 14}`
and `?days=30`. -/
theorem ReportDays_override_persists_witness :
    ("30" : String) ≠ "" ∧ goAtoi "30" = some 30 ∧
      (ReportDays ⟨["a/b"], 14, "", ""⟩ "30").daysOld = 30 :=
  ⟨by decide, by decide,
    (ReportDays_override_persists ⟨["a/b"], 14, "", ""⟩ "30" 30
      (by decide) (by decide)).2.1⟩

/-- C7: evaluation of the handler at a failing build. The status is the
server error 500 and the body starts with the raw error text, but —
because `http.Error` is not followed by `return` — the handler goes on
to execute the page template, so the body is the error text with a
rendered page appended, not the raw error text alone. -/
theorem Report_error_appends_rendered_page :
    ReportHandler ⟨["a/b"], 14, "", ""⟩ "" (fun _ => Except.error "boom")
        (fun _ => "<page>") =
      (⟨["a/b"], 14, "", ""⟩, 500, "boom\n<page>")
      ∧ ("boom\n<page>" : String) ≠ "boom" := by
  constructor
  · decide
  · decide

/-- C9: a non-empty `days` query parameter that `strconv.Atoi` rejects
is silently ignored — the shared options struct is untouched and the
request proceeds exactly as if the parameter were absent (same build
input, same response, no error status from the parse). -/
theorem Report_unparseable_days_ignored (opts : GitHubRepoActivityOptions)
    (q : String) (build : GitHubRepoActivityOptions → Except String ActivityReport)
    (renderPage : Option ActivityReport → String)
    (hq : q ≠ "") (hbad : goAtoi q = none) :
    ReportDays opts q = opts
      ∧ ReportHandler opts q build renderPage = ReportHandler opts "" build renderPage := by
  have h1 : ReportDays opts q = opts := by
    rw [ReportDays, if_pos hq, hbad]
  refine ⟨h1, ?_⟩
  rw [ReportHandler, ReportHandler, h1]
  simp [ReportDays]

/-- Witness for C9 at `?days=abc` on a 14-day configuration. -/
theorem Report_unparseable_days_ignored_witness :
    ("abc" : String) ≠ "" ∧ goAtoi "abc" = none ∧
      ReportDays ⟨["a/b"], 14, "", ""⟩ "abc" = ⟨["a/b"], 14, "", ""⟩ :=
  ⟨by decide, by decide,
    (Report_unparseable_days_ignored ⟨["a/b"], 14, "", ""⟩ "abc"
      (fun _ => Except.error "e") (fun _ => "p") (by decide) (by decide)).1⟩

end Ghra
